import Mathlib

/-!
Shallow embedding of the `audio-manager-py` repository, covering:

* `src/audio_manager/audio_player.py` — class `AudioPlayer` (the playback
  engine session: `load_file`, `play`, `pause`, `stop`, `seek`,
  `get_position`, `get_duration`, `set_volume`, `callback`,
  `finished_callback`, `cleanup`, `is_playing`, `get_current_file`);
* `src/src/main.py` — the second, near-duplicate `AudioPlayer` class;
* `src/audio_manager/utils/file_utils.py` — `parse_audio_filename`,
  `get_audio_files`;
* `src/audio_manager/database.py` — `Database.search_transcripts`.

Samples, volumes and positions in seconds are modelled as `Rat` (Python
floats are IEEE doubles; none of the verified claims depends on rounding
of the float representation itself, only on `int()` truncation, which is
modelled exactly on rationals).  Machine integers do not overflow in the
relevant ranges, so frame counts and positions are `Nat`/`Int`.
External effects (the decoder `soundfile.read`, the audio device, the
directory listing, the SQLite store) enter as explicit parameters.
-/

namespace AudioManager

/-! ## Python primitives used by the code -/

/-- Python `int(x)` applied to a float/number truncates toward zero. -/
def pytrunc (q : Rat) : Int := if 0 ≤ q then ⌊q⌋ else ⌈q⌉

/-- Python sequence-slice index conversion: a negative index counts from
the end (clamped below at 0), a nonnegative one is clamped above at the
length. -/
def pyConvIdx (len : Nat) (i : Int) : Nat :=
  if i < 0 then (len + i).toNat else min i.toNat len

/-- Python `l[a:b]` (step 1): convert both indices, then take the elements
between them (empty when the converted stop is not past the converted
start). -/
def pySlice (l : List α) (a b : Int) : List α :=
  let a' := pyConvIdx l.length a
  let b' := pyConvIdx l.length b
  (l.drop a').take (b' - a')

/-! ## `AudioPlayer` session state (src/audio_manager/audio_player.py) -/

/-- One interleaved stereo frame: (left sample, right sample). -/
abbrev Frame := Rat × Rat

/-- The mutable fields of `AudioPlayer` guarded by `self.lock`.
`data = none` models `self.data is None` (nothing loaded). -/
structure PlayerState where
  current_file : Option String
  data : Option (List Frame)
  samplerate : Option Nat
  position : Int
  playing : Bool
  volume : Rat
deriving Repr, DecidableEq

/-- The state built by `AudioPlayer.__init__`. -/
def initState : PlayerState :=
  { current_file := none, data := none, samplerate := none
    position := 0, playing := false, volume := 1 }

/-- What `soundfile.read` hands back on success: a mono array
(shape `(n,)`) or a stereo array (shape `(n, 2)`). -/
inductive DecodeOk
  | mono (samples : List Rat)
  | stereo (frames : List Frame)
deriving Repr, DecidableEq

/-- Result of the external decoder call `sf.read(file_path)`: frames and
sample rate, or the raised exception's message. -/
abbrev DecodeResult := Except String (DecodeOk × Nat)

/-- `np.column_stack((self.data, self.data))` for mono input; stereo data
is kept as is. -/
def stereoize : DecodeOk → List Frame
  | .mono s => s.map fun x => (x, x)
  | .stereo f => f

/-- `AudioPlayer.load_file`.  The decoder's outcome is passed in as
`dec`.  On success it installs the (upmixed) buffer, the sample rate and
the path and resets the position; the `except` branch clears `data`,
`samplerate`, `current_file` and resets `position` to 0, returning
`(False, str(e))`.  `playing` and `volume` are not touched on either
path. -/
def load_file (st : PlayerState) (file_path : String) (dec : DecodeResult) :
    PlayerState × Bool × String :=
  match dec with
  | .ok (d, rate) =>
      ({ st with data := some (stereoize d), samplerate := some rate
                 current_file := some file_path, position := 0 },
       true, "")
  | .error e =>
      ({ st with data := none, samplerate := none
                 current_file := none, position := 0 },
       false, e)

/-- `AudioPlayer.play`: sets `playing` only when `self.data is not None`. -/
def play (st : PlayerState) : PlayerState :=
  if st.data.isSome then { st with playing := true } else st

/-- `AudioPlayer.pause`. -/
def pause (st : PlayerState) : PlayerState :=
  { st with playing := false }

/-- `AudioPlayer.stop`. -/
def stop (st : PlayerState) : PlayerState :=
  { st with playing := false, position := 0 }

/-- `AudioPlayer.seek`: when a buffer and a sample rate are present,
`self.position = int(position_seconds * self.samplerate)` followed by
`self.position = min(self.position, len(self.data))`; otherwise nothing
happens.  Note: truncation (`int`), and no clamp below at 0. -/
def seek (st : PlayerState) (position_seconds : Rat) : PlayerState :=
  match st.data, st.samplerate with
  | some d, some rate =>
      let p := pytrunc (position_seconds * rate)
      { st with position := min p (d.length : Int) }
  | _, _ => st

/-- `AudioPlayer.get_position`: `self.position / self.samplerate` when a
sample rate is present, else `0`. -/
def get_position (st : PlayerState) : Rat :=
  match st.samplerate with
  | some rate => (st.position : Rat) / (rate : Rat)
  | none => 0

/-- `AudioPlayer.get_duration`: `len(self.data) / self.samplerate` when
both are present, else `0`. -/
def get_duration (st : PlayerState) : Rat :=
  match st.data, st.samplerate with
  | some d, some rate => (d.length : Rat) / (rate : Rat)
  | _, _ => 0

/-- `AudioPlayer.set_volume`: `max(0.0, min(1.0, volume))`. -/
def set_volume (st : PlayerState) (volume : Rat) : PlayerState :=
  { st with volume := max 0 (min 1 volume) }

/-- `AudioPlayer.is_playing`. -/
def is_playing (st : PlayerState) : Bool := st.playing

/-- `AudioPlayer.get_current_file`. -/
def get_current_file (st : PlayerState) : Option String := st.current_file

/-- Multiplying one stereo frame by the volume gain
(`self.data[...] * self.volume` acts elementwise). -/
def scaleFrame (v : Rat) (f : Frame) : Frame := (f.1 * v, f.2 * v)

/-- A silent frame (`outdata.fill(0)` / `outdata[...] = 0`). -/
def zeroFrame : Frame := (0, 0)

/-- `AudioPlayer.callback`, the render callback.  `frames` is the
requested frame count, the returned list is the content of `outdata`
after the call.  `self.data[self.position : self.position+valid_frames]`
follows Python slice semantics, so a negative `self.position` (reachable
through `seek` with negative seconds) can produce a slice shorter than
`valid_frames`; the numpy assignment `outdata[:valid_frames] = ...` then
broadcasts a length-1 slice and raises `ValueError` for any other length
mismatch, which aborts the callback before `self.position` is advanced
(modelled as `Except.error`). -/
def callback (st : PlayerState) (frames : Nat) :
    Except String (List Frame × PlayerState) :=
  match st.data with
  | none => .ok (List.replicate frames zeroFrame, st)
  | some d =>
    if st.playing = false then .ok (List.replicate frames zeroFrame, st)
    else if (d.length : Int) ≤ st.position then
      .ok (List.replicate frames zeroFrame, { st with playing := false })
    else
      let remaining : Int := (d.length : Int) - st.position
      let valid : Int := min (frames : Int) remaining
      let slice := pySlice d st.position (st.position + valid)
      if (slice.length : Int) = valid then
        .ok (slice.map (scaleFrame st.volume) ++
             List.replicate (frames - valid.toNat) zeroFrame,
             { st with position := st.position + valid })
      else if slice.length = 1 then
        .ok ((List.replicate valid.toNat (slice.headI) |>.map (scaleFrame st.volume)) ++
             List.replicate (frames - valid.toNat) zeroFrame,
             { st with position := st.position + valid })
      else
        .error "ValueError: could not broadcast input array"

/-- `AudioPlayer.finished_callback`: `playing = False`, `position = 0`. -/
def finished_callback (st : PlayerState) : PlayerState :=
  { st with playing := false, position := 0 }

/-! ## Operation alphabet

One constructor per engine operation that mutates the session, with the
operation's external inputs (the path and decoder outcome for
`load_file`, the requested frame count for the device-driven `callback`)
as payload. -/

inductive Op
  | load (file_path : String) (dec : DecodeResult)
  | play
  | pause
  | stop
  | seek (position_seconds : Rat)
  | setVolume (v : Rat)
  | callback (frames : Nat)
  | finished

/-- The state transition of one operation.  A `callback` whose numpy
slice assignment raises leaves the session as it was at the point of the
exception (the position update is the callback's last statement, so no
field has changed yet). -/
def step (st : PlayerState) : Op → PlayerState
  | .load p dec => (load_file st p dec).1
  | .play => play st
  | .pause => pause st
  | .stop => stop st
  | .seek s => seek st s
  | .setVolume v => set_volume st v
  | .callback n =>
      match callback st n with
      | .ok (_, st') => st'
      | .error _ => st
  | .finished => finished_callback st

/-- Running a sequence of operations from the freshly constructed
player. -/
def run (ops : List Op) : PlayerState := ops.foldl step initState

end AudioManager

/-! ## The second near-duplicate `AudioPlayer` (src/src/main.py)

This copy has no `volume` field and no `set_volume`, `is_playing`,
`get_current_file` or `cleanup` methods.  Its `play` does not check that
a buffer is loaded, its `load_file` `except` branch leaves all fields
unchanged, and its callback copies frames without any volume scaling. -/

namespace MainPlayer

open AudioManager (Frame DecodeOk DecodeResult stereoize pySlice pytrunc zeroFrame)

/-- The mutable fields of the `AudioPlayer` class in `src/src/main.py`. -/
structure PlayerState where
  current_file : Option String
  data : Option (List Frame)
  samplerate : Option Nat
  position : Int
  playing : Bool
deriving Repr, DecidableEq

/-- The state built by this copy's `__init__`. -/
def initState : PlayerState :=
  { current_file := none, data := none, samplerate := none
    position := 0, playing := false }

/-- `load_file` of the `src/src/main.py` copy: identical success path,
but the `except` branch only returns `(False, str(e))` without touching
any field. -/
def load_file (st : PlayerState) (file_path : String) (dec : DecodeResult) :
    PlayerState × Bool × String :=
  match dec with
  | .ok (d, rate) =>
      ({ st with data := some (stereoize d), samplerate := some rate
                 current_file := some file_path, position := 0 },
       true, "")
  | .error e => (st, false, e)

/-- `play` of the `src/src/main.py` copy: unconditionally
`self.playing = True`. -/
def play (st : PlayerState) : PlayerState := { st with playing := true }

/-- `pause` (identical to the other copy). -/
def pause (st : PlayerState) : PlayerState := { st with playing := false }

/-- `stop` (identical to the other copy). -/
def stop (st : PlayerState) : PlayerState :=
  { st with playing := false, position := 0 }

/-- `seek` (identical to the other copy). -/
def seek (st : PlayerState) (position_seconds : Rat) : PlayerState :=
  match st.data, st.samplerate with
  | some d, some rate =>
      let p := pytrunc (position_seconds * rate)
      { st with position := min p (d.length : Int) }
  | _, _ => st

/-- `get_position` (identical to the other copy). -/
def get_position (st : PlayerState) : Rat :=
  match st.samplerate with
  | some rate => (st.position : Rat) / (rate : Rat)
  | none => 0

/-- `get_duration` (identical to the other copy). -/
def get_duration (st : PlayerState) : Rat :=
  match st.data, st.samplerate with
  | some d, some rate => (d.length : Rat) / (rate : Rat)
  | _, _ => 0

/-- `callback` of the `src/src/main.py` copy: same control flow as the
other copy but the copied frames are not multiplied by any volume
(`outdata[:valid_frames] = self.data[...]` directly). -/
def callback (st : PlayerState) (frames : Nat) :
    Except String (List Frame × PlayerState) :=
  match st.data with
  | none => .ok (List.replicate frames zeroFrame, st)
  | some d =>
    if st.playing = false then .ok (List.replicate frames zeroFrame, st)
    else if (d.length : Int) ≤ st.position then
      .ok (List.replicate frames zeroFrame, { st with playing := false })
    else
      let remaining : Int := (d.length : Int) - st.position
      let valid : Int := min (frames : Int) remaining
      let slice := pySlice d st.position (st.position + valid)
      if (slice.length : Int) = valid then
        .ok (slice ++ List.replicate (frames - valid.toNat) zeroFrame,
             { st with position := st.position + valid })
      else if slice.length = 1 then
        .ok (List.replicate valid.toNat slice.headI ++
             List.replicate (frames - valid.toNat) zeroFrame,
             { st with position := st.position + valid })
      else
        .error "ValueError: could not broadcast input array"

/-- `finished_callback` (identical to the other copy). -/
def finished_callback (st : PlayerState) : PlayerState :=
  { st with playing := false, position := 0 }

end MainPlayer

namespace AudioManager

/-! ## The lock and `cleanup` (src/audio_manager/audio_player.py)

Every Control API method of `AudioPlayer` begins with `with self.lock:`.
`cleanup` replaces `self.lock` by `None`; entering `with None:` raises a
`TypeError` before the method body runs.  `lock = true` models a live
`threading.Lock`, `lock = false` models `self.lock is None`. -/

/-- The whole `AudioPlayer` object: the lock, the output stream handle
(present or already closed/`None`), and the session fields. -/
structure PlayerObj where
  lock : Bool
  stream : Bool
  sess : PlayerState
deriving Repr, DecidableEq

/-- The object built by `AudioPlayer.__init__` when the stream opened. -/
def initObj : PlayerObj := { lock := true, stream := true, sess := initState }

/-- `AudioPlayer.cleanup`: stops and drops the stream, sets
`self.lock = None`, clears `data`, `samplerate`, `current_file`, resets
`position` and `playing`.  (`volume` is not touched.) -/
def cleanup (o : PlayerObj) : PlayerObj :=
  { lock := false, stream := false
    sess := { current_file := none, data := none, samplerate := none
              position := 0, playing := false, volume := o.sess.volume } }

/-- One Control API entry point (each corresponds to a public method
that opens with `with self.lock:`). -/
inductive ApiOp
  | load (file_path : String) (dec : DecodeResult)
  | play
  | pause
  | stop
  | seek (position_seconds : Rat)
  | setVolume (v : Rat)
  | getPosition
  | getDuration
  | isPlaying
  | getCurrentFile

/-- The value a Control API call hands back to the caller. -/
inductive ApiRet
  | unit
  | loadRet (ok : Bool) (msg : String)
  | rat (q : Rat)
  | bool (b : Bool)
  | file (f : Option String)
deriving Repr, DecidableEq

/-- The message of the `TypeError` raised by `with None:`. -/
def lockGoneMsg : String :=
  "TypeError: 'NoneType' object does not support the context manager protocol"

/-- Dispatch of one Control API call on the object.  Acquiring the lock
is the first action of every method; with `self.lock = None` this raises
instead of running the body. -/
def apiCall (o : PlayerObj) (op : ApiOp) : Except String (PlayerObj × ApiRet) :=
  if o.lock = false then .error lockGoneMsg
  else
    match op with
    | .load p dec =>
        let (st', ok, msg) := load_file o.sess p dec
        .ok ({ o with sess := st' }, .loadRet ok msg)
    | .play => .ok ({ o with sess := play o.sess }, .unit)
    | .pause => .ok ({ o with sess := pause o.sess }, .unit)
    | .stop => .ok ({ o with sess := stop o.sess }, .unit)
    | .seek s => .ok ({ o with sess := seek o.sess s }, .unit)
    | .setVolume v => .ok ({ o with sess := set_volume o.sess v }, .unit)
    | .getPosition => .ok (o, .rat (get_position o.sess))
    | .getDuration => .ok (o, .rat (get_duration o.sess))
    | .isPlaying => .ok (o, .bool (is_playing o.sess))
    | .getCurrentFile => .ok (o, .file (get_current_file o.sess))

end AudioManager

namespace FileUtils

/-! ## Filename timestamp parsing (src/audio_manager/utils/file_utils.py)

Python strings are modelled as `List Char`.  `int(s)` is modelled for
ASCII input: optional surrounding whitespace, an optional single sign,
then decimal digits with single underscores allowed between digits (the
builtin additionally accepts some Unicode digits and whitespace; no
filename in any claim uses those). -/

/-- ASCII decimal digit. -/
def pyIsDigit (c : Char) : Bool := decide (48 ≤ c.toNat ∧ c.toNat ≤ 57)

/-- The ASCII whitespace stripped by `int()` / `str.strip()`. -/
def pyIsSpace (c : Char) : Bool :=
  decide (c.toNat = 32 ∨ c.toNat = 9 ∨ c.toNat = 10 ∨ c.toNat = 13 ∨
          c.toNat = 11 ∨ c.toNat = 12)

/-- Strip whitespace from both ends. -/
def stripWs (l : List Char) : List Char :=
  ((l.dropWhile pyIsSpace).reverse.dropWhile pyIsSpace).reverse

/-- The tail of a digit group: digits, with a single `_` allowed between
two digits (`int("1_0") == 10`, while `int("1__0")` and `int("1_")`
raise). -/
def digitTail : List Char → Bool
  | [] => true
  | c :: rest =>
    if c = '_' then
      match rest with
      | [] => false
      | c2 :: rest2 => pyIsDigit c2 && digitTail (c2 :: rest2)
    else pyIsDigit c && digitTail rest

/-- A nonempty digit group (the part of an `int()` literal after the
optional sign). -/
def digitGroup : List Char → Bool
  | [] => false
  | c :: rest => pyIsDigit c && digitTail rest

/-- Decimal value of a digit group, skipping grouping underscores. -/
def pyDigitsVal (l : List Char) : Nat :=
  (l.filter fun c => c ≠ '_').foldl (fun a c => 10 * a + (c.toNat - 48)) 0

/-- Python `int(s)` on an ASCII string, `none` for the `ValueError`. -/
def pyInt (l : List Char) : Option Int :=
  match stripWs l with
  | [] => none
  | c :: rest =>
    if c = '+' then
      if digitGroup rest then some (pyDigitsVal rest : Int) else none
    else if c = '-' then
      if digitGroup rest then some (-(pyDigitsVal rest : Int)) else none
    else if digitGroup (c :: rest) then
      some (pyDigitsVal (c :: rest) : Int)
    else none

/-- Gregorian leap year (as in `datetime`). -/
def isLeap (y : Nat) : Bool :=
  decide (y % 4 = 0 ∧ (y % 100 ≠ 0 ∨ y % 400 = 0))

/-- Length of a month, as validated by the `datetime` constructor. -/
def daysInMonth (y m : Nat) : Nat :=
  if m = 2 then (if isLeap y then 29 else 28)
  else if m = 4 ∨ m = 6 ∨ m = 9 ∨ m = 11 then 30
  else 31

/-- A `datetime.datetime` value (to minute precision, as constructed by
the parser). -/
structure Timestamp where
  year : Nat
  month : Nat
  day : Nat
  hour : Nat
  minute : Nat
deriving Repr, DecidableEq

/-- The `datetime(year, month, day, hour, minute)` constructor: `none`
models the `ValueError` on out-of-range components
(`MINYEAR = 1 ≤ year ≤ 9999 = MAXYEAR`). -/
def mkDatetime (y mo d h mi : Int) : Option Timestamp :=
  if 1 ≤ y ∧ y ≤ 9999 ∧ 1 ≤ mo ∧ mo ≤ 12 ∧
     1 ≤ d ∧ d ≤ (daysInMonth y.toNat mo.toNat : Int) ∧
     0 ≤ h ∧ h ≤ 23 ∧ 0 ≤ mi ∧ mi ≤ 59 then
    some ⟨y.toNat, mo.toNat, d.toNat, h.toNat, mi.toNat⟩
  else none

/-- `parse_audio_filename`: slices `filename[:6]` and `filename[7:11]`,
builds `int("20" + date_str[:2])`, `int(date_str[2:4])`, … and calls
`datetime(...)`; any `ValueError` gives `None`.  (All slice bounds are
nonnegative, so Python slicing is plain `take`/`drop` truncation.) -/
def parse_audio_filename (filename : List Char) : Option Timestamp :=
  let date_str := filename.take 6
  let time_str := (filename.drop 7).take 4
  let year := '2' :: '0' :: date_str.take 2
  let month := (date_str.drop 2).take 2
  let day := (date_str.drop 4).take 2
  let hour := time_str.take 2
  let minute := (time_str.drop 2).take 2
  match pyInt year, pyInt month, pyInt day, pyInt hour, pyInt minute with
  | some y, some mo, some d, some h, some mi => mkDatetime y mo d h mi
  | _, _, _, _, _ => none

/-- Chronological key of a timestamp (mixed radix; strictly monotone in
the lexicographic component order, since month < 13, day < 32,
hour < 24, minute < 60). -/
def tsKey (t : Timestamp) : Nat :=
  (((t.year * 13 + t.month) * 32 + t.day) * 24 + t.hour) * 60 + t.minute

/-- Stable insertion of `x` in front of the first element `y` with
`le x y`. -/
def insertLe (le : α → α → Bool) (x : α) : List α → List α
  | [] => [x]
  | y :: ys => if le x y then x :: y :: ys else y :: insertLe le x ys

/-- Stable insertion sort; models Python's (stable) `sorted`. -/
def insertionSort (le : α → α → Bool) : List α → List α
  | [] => []
  | x :: xs => insertLe le x (insertionSort le xs)

/-- One entry of the `get_audio_files` result
(`{'path': …, 'filename': …, 'timestamp': …}`). -/
structure AudioFileEntry where
  path : List Char
  filename : List Char
  timestamp : Timestamp
deriving Repr, DecidableEq

/-- `Path(...).glob('*.mp3')` membership test on a directory entry. -/
def isMp3 (name : List Char) : Bool := ".mp3".toList.isSuffixOf name

/-- `Path.stem` of a name ending in `.mp3`: the last suffix is dropped,
except that a bare `".mp3"` (leading dot, no other suffix) is its own
stem. -/
def stemOfMp3 (name : List Char) : List Char :=
  if name = ".mp3".toList then name else name.take (name.length - 4)

/-- `get_audio_files`: globs the directory listing for `*.mp3`, keeps
files whose stem parses, and sorts by timestamp, newest first
(`sorted(..., reverse=True)`). -/
def get_audio_files (directory : List Char) (listing : List (List Char)) :
    List AudioFileEntry :=
  let files := (listing.filter isMp3).filterMap fun name =>
    match parse_audio_filename (stemOfMp3 name) with
    | some ts => some ⟨directory ++ '/' :: name, name, ts⟩
    | none => none
  insertionSort (fun a b => tsKey b.timestamp ≤ tsKey a.timestamp) files

end FileUtils

namespace Database

open FileUtils (insertionSort insertLe)

/-! ## Transcript store (src/audio_manager/database.py)

The SQLite tables are modelled relationally: a list of rows each.  The
`timestamp` column (`DATETIME DEFAULT CURRENT_TIMESTAMP`) only ever
feeds `ORDER BY`, so it is modelled as an opaque integer key. -/

/-- A row of the `transcriptions` table. -/
structure TransRow where
  file_path : String
  transcript : String
  timestamp : Int
  status : String
deriving Repr, DecidableEq

/-- A row of the `search_index` table. -/
structure IndexRow where
  file_path : String
  word : List Char
  position : Nat
deriving Repr, DecidableEq

/-- The store contents. -/
structure DBState where
  transcriptions : List TransRow
  search_index : List IndexRow

/-- ASCII lowercasing (`str.lower()`; SQLite's `LIKE` is likewise
case-insensitive exactly on ASCII letters).  No claim involves
non-ASCII case. -/
def asciiLower (c : Char) : Char :=
  if 65 ≤ c.toNat ∧ c.toNat ≤ 90 then Char.ofNat (c.toNat + 32) else c

/-- SQL `LIKE` matching (no `ESCAPE` clause in the query): `%` matches
any sequence, `_` any single character, anything else itself up to ASCII
case. -/
def sqlLike (p s : List Char) : Bool :=
  match p, s with
  | [], s => s.isEmpty
  | p0 :: ps, s =>
    if p0 = '%' then
      (sqlLike ps s ||
        match s with
        | [] => false
        | _ :: s' => sqlLike (p0 :: ps) s')
    else
      match s with
      | [] => false
      | c :: s' =>
        if p0 = '_' then sqlLike ps s'
        else decide (asciiLower p0 = asciiLower c) && sqlLike ps s'
termination_by (p.length, s.length)
decreasing_by all_goals (simp_wf; omega)

/-- `Database.search_transcripts`: the SQL
`SELECT DISTINCT t.file_path, t.transcript FROM transcriptions t JOIN
search_index si ON t.file_path = si.file_path WHERE si.word LIKE
'%{query.lower()}%' AND t.status = 'completed' ORDER BY t.timestamp
DESC` — rendered as: keep the completed transcription rows that have at
least one index row with a matching word, order them newest first,
project to `(file_path, transcript)` and deduplicate. -/
def search_transcripts (db : DBState) (query : List Char) :
    List (String × String) :=
  let pattern := '%' :: (query.map asciiLower) ++ ['%']
  let rows := db.transcriptions.filter fun t =>
    t.status == "completed" &&
    db.search_index.any fun si =>
      si.file_path == t.file_path && sqlLike pattern si.word
  (((insertionSort (fun a b => decide (b.timestamp ≤ a.timestamp)) rows).map
      fun t => (t.file_path, t.transcript))).dedup

end Database

/-! # Claims

Each claim of the specification is settled below, either as stated or —
where the code disagrees — through a counterexample plus the amended
statement that the code does satisfy.  Concrete states used as inputs: -/

/-- A 4-frame stereo buffer. -/
def demoFrames : List AudioManager.Frame := [(1, 1), (2, 2), (3, 3), (4, 4)]

/-- A session with `demoFrames` loaded at sample rate 2, stopped at the
start. -/
def loadedSt : AudioManager.PlayerState :=
  { current_file := some "a.mp3", data := some demoFrames
    samplerate := some 2, position := 0, playing := false, volume := 1 }

/-- The same session, playing at frame 3. -/
def playingSt : AudioManager.PlayerState :=
  { loadedSt with position := 3, playing := true }

/-! ## Claim-statement definitions -/

/-- C1 as stated: a failing `load_file` returns the failure reason and
leaves the whole session exactly as it was. -/
def ClaimC1Statement : Prop :=
  ∀ (st : AudioManager.PlayerState) (path err : String),
    AudioManager.load_file st path (.error err) = (st, false, err)

/-- C2 as stated: `seek(s)` puts the position at
`clamp(round(s·rate), 0, frame_count)`, observed through
`get_position`; no-op with nothing loaded. -/
def ClaimC2Statement : Prop :=
  (∀ (st : AudioManager.PlayerState) (d : List AudioManager.Frame)
      (rate : Nat) (s : Rat),
    st.data = some d → st.samplerate = some rate →
    AudioManager.get_position (AudioManager.seek st s) =
      ((max 0 (min (round (s * (rate : Rat))) (d.length : Int)) : Int) : Rat) /
        (rate : Rat)) ∧
  (∀ (st : AudioManager.PlayerState) (s : Rat),
    st.data = none → AudioManager.seek st s = st)

/-- The position bounds that do hold in every reachable state: the
position is 0 whenever no buffer is loaded, and never exceeds the frame
count.  (The claimed lower bound 0 is not an invariant; see the
counterexample.) -/
def PosInv (st : AudioManager.PlayerState) : Prop :=
  (st.data = none → st.position = 0) ∧
  (∀ d : List AudioManager.Frame, st.data = some d →
    st.position ≤ (d.length : Int))

/-- C3 as stated: every state reachable from the fresh player satisfies
0 ≤ position ≤ frame count, with position 0 when no buffer is loaded. -/
def ClaimC3Statement : Prop :=
  ∀ ops : List AudioManager.Op,
    0 ≤ (AudioManager.run ops).position ∧ PosInv (AudioManager.run ops)

/-- The buffer frame at (mathematical) index `k`, absent when `k` is out
of range. -/
def frameAt (d : List AudioManager.Frame) (k : Int) :
    Option AudioManager.Frame :=
  if 0 ≤ k then d.get? k.toNat else none

/-- C4 as stated: for every loaded, playing state with position `p < F`
and every request `n`, the callback succeeds, writes exactly `n` frames
(the first `valid = min(n, F−p)` of them the volume-scaled buffer frames
from `p` on, the rest silence) and advances the position by `valid`;
with `p ≥ F` it writes `n` frames of silence and stops. -/
def ClaimC4Statement : Prop :=
  ∀ (st : AudioManager.PlayerState) (d : List AudioManager.Frame) (n : Nat),
    st.data = some d → st.playing = true →
    ((st.position < (d.length : Int)) →
      ∃ out st', AudioManager.callback st n = .ok (out, st') ∧
        out.length = n ∧
        (∀ i : Nat, (i : Int) < min (n : Int) ((d.length : Int) - st.position) →
          out.get? i =
            (frameAt d (st.position + i)).map
              (AudioManager.scaleFrame st.volume)) ∧
        (∀ i : Nat, min (n : Int) ((d.length : Int) - st.position) ≤ (i : Int) →
          i < n → out.get? i = some AudioManager.zeroFrame) ∧
        st'.position =
          st.position + min (n : Int) ((d.length : Int) - st.position)) ∧
    (((d.length : Int) ≤ st.position) →
      AudioManager.callback st n =
        .ok (List.replicate n AudioManager.zeroFrame,
             { st with playing := false }))

/-- A playing state whose position was driven negative by
`seek(-0.5)` at rate 2 — reachable, and satisfying the claim's
hypothesis `position < frame count`. -/
def negSt : AudioManager.PlayerState :=
  { loadedSt with position := -1, playing := true }

/-- Is the operation `stop()` or `load()`? -/
def isStopOrLoad : AudioManager.Op → Bool
  | .stop => true
  | .load _ _ => true
  | _ => false

/-- C5 as stated: `pause()` never changes the position, and no operation
other than `stop()` and `load()` takes a nonzero position to 0. -/
def ClaimC5Statement : Prop :=
  (∀ st : AudioManager.PlayerState,
    (AudioManager.step st AudioManager.Op.pause).position = st.position) ∧
  (∀ (st : AudioManager.PlayerState) (op : AudioManager.Op),
    isStopOrLoad op = false → st.position ≠ 0 →
    (AudioManager.step st op).position ≠ 0)

/-- The fields the `src/src/main.py` copy shares with the
`src/audio_manager` copy (everything except the volume). -/
def eraseState (st : AudioManager.PlayerState) : MainPlayer.PlayerState :=
  { current_file := st.current_file, data := st.data
    samplerate := st.samplerate, position := st.position
    playing := st.playing }

/-- The operations both copies implement (`set_volume` exists only in
the `src/audio_manager` copy). -/
inductive CtlOp
  | load (file_path : String) (dec : AudioManager.DecodeResult)
  | play
  | pause
  | stop
  | seek (s : Rat)
  | callback (n : Nat)
  | finished

/-- One operation of the `src/audio_manager` copy together with the
callback output it produces (if the operation is a callback). -/
def stepA (st : AudioManager.PlayerState) :
    CtlOp → AudioManager.PlayerState ×
      List (Except String (List AudioManager.Frame))
  | .load p dec => ((AudioManager.load_file st p dec).1, [])
  | .play => (AudioManager.play st, [])
  | .pause => (AudioManager.pause st, [])
  | .stop => (AudioManager.stop st, [])
  | .seek s => (AudioManager.seek st s, [])
  | .callback n =>
      match AudioManager.callback st n with
      | .ok (out, st') => (st', [.ok out])
      | .error e => (st, [.error e])
  | .finished => (AudioManager.finished_callback st, [])

/-- One operation of the `src/src/main.py` copy. -/
def stepM (st : MainPlayer.PlayerState) :
    CtlOp → MainPlayer.PlayerState ×
      List (Except String (List AudioManager.Frame))
  | .load p dec => ((MainPlayer.load_file st p dec).1, [])
  | .play => (MainPlayer.play st, [])
  | .pause => (MainPlayer.pause st, [])
  | .stop => (MainPlayer.stop st, [])
  | .seek s => (MainPlayer.seek st s, [])
  | .callback n =>
      match MainPlayer.callback st n with
      | .ok (out, st') => (st', [.ok out])
      | .error e => (st, [.error e])
  | .finished => (MainPlayer.finished_callback st, [])

/-- Run of the `src/audio_manager` copy: final state and the
concatenated callback-output log. -/
def runA : AudioManager.PlayerState → List CtlOp →
    AudioManager.PlayerState × List (Except String (List AudioManager.Frame))
  | st, [] => (st, [])
  | st, op :: ops =>
      let r := stepA st op
      let rest := runA r.1 ops
      (rest.1, r.2 ++ rest.2)

/-- Run of the `src/src/main.py` copy. -/
def runM : MainPlayer.PlayerState → List CtlOp →
    MainPlayer.PlayerState × List (Except String (List AudioManager.Frame))
  | st, [] => (st, [])
  | st, op :: ops =>
      let r := stepM st op
      let rest := runM r.1 ops
      (rest.1, r.2 ++ rest.2)

/-- C7 as stated: on every common operation sequence with the same
inputs, the two copies produce the same outputs and the same (shared)
session state. -/
def ClaimC7Statement : Prop :=
  ∀ ops : List CtlOp,
    eraseState (runA AudioManager.initState ops).1 =
      (runM MainPlayer.initState ops).1 ∧
    (runA AudioManager.initState ops).2 =
      (runM MainPlayer.initState ops).2

namespace FileUtils

/-- The claim's pattern `YYMMDD_HHMM`, rendered from the spec's words:
exactly six digits forming a valid date, one separator character, and
four digits forming a valid time.  The two-digit year is read as `20YY`
(as the code does), which fixes the leap-year rule. -/
def specMatch (s : List Char) : Bool :=
  match s with
  | [d0, d1, d2, d3, d4, d5, _sep, h0, h1, m0, m1] =>
      pyIsDigit d0 && pyIsDigit d1 && pyIsDigit d2 && pyIsDigit d3 &&
      pyIsDigit d4 && pyIsDigit d5 && pyIsDigit h0 && pyIsDigit h1 &&
      pyIsDigit m0 && pyIsDigit m1 &&
      decide
        (1 ≤ 10 * (d2.toNat - 48) + (d3.toNat - 48) ∧
         10 * (d2.toNat - 48) + (d3.toNat - 48) ≤ 12 ∧
         1 ≤ 10 * (d4.toNat - 48) + (d5.toNat - 48) ∧
         10 * (d4.toNat - 48) + (d5.toNat - 48) ≤
           daysInMonth (2000 + (10 * (d0.toNat - 48) + (d1.toNat - 48)))
             (10 * (d2.toNat - 48) + (d3.toNat - 48)) ∧
         10 * (h0.toNat - 48) + (h1.toNat - 48) ≤ 23 ∧
         10 * (m0.toNat - 48) + (m1.toNat - 48) ≤ 59)
  | _ => false

end FileUtils

/-- C8 as stated: the parser succeeds exactly on stems matching the
`YYMMDD_HHMM` pattern. -/
def ClaimC8Statement : Prop :=
  ∀ s : List Char,
    ((FileUtils.parse_audio_filename s).isSome = true ↔
      FileUtils.specMatch s = true)

/-- A one-row store with two indexed words. -/
def demoDB : Database.DBState :=
  { transcriptions := [⟨"a.mp3", "hello cat", 5, "completed"⟩]
    search_index := [⟨"a.mp3", "hello".toList, 0⟩, ⟨"a.mp3", "cat".toList, 1⟩] }

/-! ## C1 — state preservation on `load_file` failure -/

/-- C1 is false on the code: with `a.mp3` loaded, a failing `load_file`
sets `current_file` (and `data`, `samplerate`) to `None` instead of
leaving them unchanged. -/
theorem C1_counterexample : ¬ ClaimC1Statement := fun h => by
  have h2 := congrArg (fun r => r.1.current_file) (h loadedSt "x.mp3" "boom")
  simp [AudioManager.load_file, loadedSt] at h2

/-- C1 amended: a failing `load_file` returns `(false, reason)` but
clears `data`, `samplerate` and `current_file` and resets `position` to
0; the playing flag (hence `is_playing()`) and the volume are unchanged;
in particular, if nothing was loaded before (all three fields absent and
position 0), the session is exactly as it was. -/
theorem C1_amended_load_failure_clears (st : AudioManager.PlayerState)
    (path err : String) :
    AudioManager.load_file st path (.error err) =
      ({ st with data := none, samplerate := none, current_file := none
                 position := 0 }, false, err) ∧
    AudioManager.is_playing (AudioManager.load_file st path (.error err)).1 =
      AudioManager.is_playing st ∧
    (AudioManager.load_file st path (.error err)).1.volume = st.volume ∧
    (st.data = none → st.samplerate = none → st.current_file = none →
      st.position = 0 →
      AudioManager.load_file st path (.error err) = (st, false, err)) := by
  refine ⟨rfl, rfl, rfl, fun h1 h2 h3 h4 => ?_⟩
  obtain ⟨cf, da, sr, pos, pl, vol⟩ := st
  simp only at h1 h2 h3 h4
  subst h1 h2 h3 h4
  rfl

/-- Witness for C1: the amended statement applied to the fresh (empty)
session, where the failing load indeed changes nothing. -/
theorem C1_witness :
    AudioManager.load_file AudioManager.initState "x.mp3" (.error "boom") =
      (AudioManager.initState, false, "boom") :=
  (C1_amended_load_failure_clears AudioManager.initState "x.mp3" "boom").2.2.2
    rfl rfl rfl rfl

/-! ## C2 — `seek` semantics -/

/-- C2 is false on the code: `seek(-1)` at rate 2 leaves the position at
`int(-1·2) = -2` (there is no lower clamp), so `get_position` returns
`-1`, not the claimed `clamp(round(-2), 0, 4)/2 = 0`. -/
theorem C2_counterexample : ¬ ClaimC2Statement := fun h => by
  have h2 := h.1 loadedSt demoFrames 2 (-1) rfl rfl
  have hr : round ((-1 : Rat) * ((2 : Nat) : Rat)) = -2 := by
    have h3 : ((-1 : Rat) * ((2 : Nat) : Rat)) = (((-2 : Int) : Rat)) := by
      norm_num
    rw [h3, round_intCast]
  rw [hr] at h2
  have hc : (⌈(-2 : Rat)⌉ : Int) = -2 := by
    have h4 : ((-2 : Rat)) = (((-2 : Int) : Rat)) := by norm_num
    rw [h4, Int.ceil_intCast]
  norm_num [AudioManager.get_position, AudioManager.seek, AudioManager.pytrunc,
    loadedSt, demoFrames, hc] at h2

/-- C2 amended: with a buffer of `F` frames at rate `R` loaded,
`seek(s)` sets the position to `min(int(s·R), F)` where `int` truncates
toward zero — there is no clamp below at 0, so negative `s` yields a
negative position — and `get_position` then returns that value divided
by `R`; with nothing loaded, `seek` is a no-op. -/
theorem C2_amended_seek_truncates_no_lower_clamp :
    (∀ (st : AudioManager.PlayerState) (d : List AudioManager.Frame)
        (rate : Nat) (s : Rat),
      st.data = some d → st.samplerate = some rate →
      (AudioManager.seek st s).position =
        min (AudioManager.pytrunc (s * (rate : Rat))) (d.length : Int) ∧
      AudioManager.get_position (AudioManager.seek st s) =
        ((min (AudioManager.pytrunc (s * (rate : Rat))) (d.length : Int) : Int) : Rat) /
          (rate : Rat)) ∧
    (∀ (st : AudioManager.PlayerState) (s : Rat),
      st.data = none → AudioManager.seek st s = st) := by
  constructor
  · intro st d rate s hd hr
    constructor
    · simp [AudioManager.seek, hd, hr]
    · simp [AudioManager.seek, AudioManager.get_position, hd, hr]
  · intro st s hd
    simp [AudioManager.seek, hd]

/-- Witness for C2: seeking to 5 s in the 4-frame rate-2 buffer truncates
`int(5·2) = 10` and clamps to the frame count 4, observed as 2 s; a seek
on the fresh session does nothing. -/
theorem C2_witness :
    (AudioManager.seek loadedSt 5).position =
      min (AudioManager.pytrunc (5 * (2 : Rat))) ((demoFrames.length : Nat) : Int) ∧
    AudioManager.seek AudioManager.initState 5 = AudioManager.initState :=
  ⟨(C2_amended_seek_truncates_no_lower_clamp.1 loadedSt demoFrames 2 5 rfl rfl).1,
   C2_amended_seek_truncates_no_lower_clamp.2 AudioManager.initState 5 rfl⟩

/-! ## C3 — position bounds in reachable states -/

/-- The position after a `callback` step never exceeds the frame count,
and the buffer is untouched. -/
theorem posInv_callback (st : AudioManager.PlayerState) (n : Nat)
    (out : List AudioManager.Frame) (st' : AudioManager.PlayerState)
    (hc : AudioManager.callback st n = .ok (out, st')) :
    st'.data = st.data ∧
    (st'.position = st.position ∨
      ∃ d : List AudioManager.Frame, st.data = some d ∧
        st.position < (d.length : Int) ∧
        st'.position = st.position +
          min (n : Int) ((d.length : Int) - st.position)) := by
  unfold AudioManager.callback at hc
  split at hc
  · simp only [Except.ok.injEq, Prod.mk.injEq] at hc
    obtain ⟨-, rfl⟩ := hc
    exact ⟨rfl, Or.inl rfl⟩
  · rename_i d hdata
    split at hc
    · simp only [Except.ok.injEq, Prod.mk.injEq] at hc
      obtain ⟨-, rfl⟩ := hc
      exact ⟨rfl, Or.inl rfl⟩
    · split at hc
      · simp only [Except.ok.injEq, Prod.mk.injEq] at hc
        obtain ⟨-, rfl⟩ := hc
        exact ⟨rfl, Or.inl rfl⟩
      · rename_i hend
        dsimp only at hc
        split at hc
        · simp only [Except.ok.injEq, Prod.mk.injEq] at hc
          obtain ⟨-, rfl⟩ := hc
          exact ⟨rfl, Or.inr ⟨d, hdata, by omega, rfl⟩⟩
        · split at hc
          · simp only [Except.ok.injEq, Prod.mk.injEq] at hc
            obtain ⟨-, rfl⟩ := hc
            exact ⟨rfl, Or.inr ⟨d, hdata, by omega, rfl⟩⟩
          · exact absurd hc (by simp)

/-- Every single operation preserves `PosInv`. -/
theorem posInv_step (st : AudioManager.PlayerState) (op : AudioManager.Op)
    (h : PosInv st) : PosInv (AudioManager.step st op) := by
  obtain ⟨h0, hle⟩ := h
  cases op with
  | load p dec =>
    cases dec with
    | ok x =>
      obtain ⟨d, rate⟩ := x
      exact ⟨fun hd => rfl, fun d' _ => Int.natCast_nonneg _⟩
    | error e =>
      exact ⟨fun _ => rfl, fun d' hd' => by
        simp [AudioManager.step, AudioManager.load_file] at hd'⟩
  | play =>
    simp only [AudioManager.step, AudioManager.play]
    split
    · exact ⟨h0, hle⟩
    · exact ⟨h0, hle⟩
  | pause => exact ⟨h0, hle⟩
  | stop =>
    exact ⟨fun _ => rfl, fun d' _ => Int.natCast_nonneg _⟩
  | seek s =>
    simp only [AudioManager.step, AudioManager.seek]
    split
    · rename_i d rate hd hr
      refine ⟨fun hnone => absurd (hd.symm.trans hnone) (by simp),
              fun d' hd' => ?_⟩
      obtain rfl : d = d' := by
        rw [hd] at hd'
        exact Option.some.inj hd'
      exact min_le_right _ _
    · exact ⟨h0, hle⟩
  | setVolume v => exact ⟨h0, hle⟩
  | callback n =>
    simp only [AudioManager.step]
    rcases hc : AudioManager.callback st n with e | ⟨out, st'⟩
    · exact ⟨h0, hle⟩
    · obtain ⟨hdata', hpos⟩ := posInv_callback st n out st' hc
      show PosInv st'
      rcases hpos with hsame | ⟨d, hd, hlt, hnew⟩
      · refine ⟨fun hn => ?_, fun d' hd' => ?_⟩
        · rw [hdata'] at hn
          rw [hsame]
          exact h0 hn
        · rw [hdata'] at hd'
          rw [hsame]
          exact hle d' hd'
      · refine ⟨fun hn => ?_, fun d' hd' => ?_⟩
        · rw [hdata', hd] at hn
          exact absurd hn (by simp)
        · rw [hdata', hd] at hd'
          obtain rfl : d = d' := by injection hd'
          rw [hnew]
          omega
  | finished =>
    exact ⟨fun _ => rfl, fun d' _ => Int.natCast_nonneg _⟩

/-- C3 is false on the code: after loading the 4-frame rate-2 buffer,
`seek(-1)` drives the position to `int(-1·2) = -2 < 0`. -/
theorem C3_counterexample : ¬ ClaimC3Statement := fun h => by
  have h2 := (h [AudioManager.Op.load "a.mp3" (.ok (.stereo demoFrames, 2)),
                 AudioManager.Op.seek (-1)]).1
  have htr : AudioManager.pytrunc ((-1) * ((2 : Nat) : Rat)) = -2 := by
    unfold AudioManager.pytrunc
    have h3 : ((-1 : Rat) * ((2 : Nat) : Rat)) = (((-2 : Int) : Rat)) := by
      norm_num
    rw [h3, if_neg (by norm_num), Int.ceil_intCast]
  have hrun : (AudioManager.run
      [AudioManager.Op.load "a.mp3" (.ok (.stereo demoFrames, 2)),
       AudioManager.Op.seek (-1)]).position =
      min (AudioManager.pytrunc ((-1) * ((2 : Nat) : Rat)))
        ((demoFrames.length : Nat) : Int) := rfl
  rw [hrun, htr] at h2
  simp [demoFrames] at h2

/-- C3 amended: in every reachable state the position never exceeds the
frame count and is 0 whenever no buffer is loaded; the claimed lower
bound 0 is not invariant (`seek` with negative seconds makes the
position negative). -/
theorem C3_amended_position_upper_bound (ops : List AudioManager.Op) :
    PosInv (AudioManager.run ops) := by
  have hgen : ∀ (l : List AudioManager.Op) (st : AudioManager.PlayerState),
      PosInv st → PosInv (l.foldl AudioManager.step st) := by
    intro l
    induction l with
    | nil => exact fun st h => h
    | cons op rest ih =>
      intro st h
      exact ih (AudioManager.step st op) (posInv_step st op h)
  exact hgen ops AudioManager.initState ⟨fun _ => rfl, fun d h => by
    simp [AudioManager.initState] at h⟩

/-! ## C4 — the render callback contract -/

/-- C4 is false on the code as quantified: at the reachable position
`-1` (which satisfies `p < F`), a 2-frame request makes the numpy slice
`data[-1 : 1]` empty, the assignment to `outdata[:valid]` raises
`ValueError`, and the callback produces no output at all. -/
theorem C4_counterexample : ¬ ClaimC4Statement := fun h => by
  obtain ⟨h1, -⟩ := h negSt demoFrames 2 rfl rfl
  obtain ⟨out, st', heq, -⟩ := h1 (by decide)
  have herr : AudioManager.callback negSt 2 =
      .error "ValueError: could not broadcast input array" := rfl
  rw [herr] at heq
  exact absurd heq (by simp)

/-- Python slicing with in-range nonnegative indices is
`drop`-then-`take`. -/
theorem pySlice_nonneg (d : List α) (a b : Int) (h0 : 0 ≤ a) (hab : a ≤ b)
    (hb : b ≤ (d.length : Int)) :
    AudioManager.pySlice d a b = (d.drop a.toNat).take (b.toNat - a.toNat) := by
  unfold AudioManager.pySlice AudioManager.pyConvIdx
  dsimp only
  rw [if_neg (by omega), if_neg (by omega),
      min_eq_left (by omega), min_eq_left (by omega)]

/-- Any successful callback writes exactly the requested number of
frames. -/
theorem callback_ok_length (st : AudioManager.PlayerState) (n : Nat)
    (out : List AudioManager.Frame) (st' : AudioManager.PlayerState)
    (hc : AudioManager.callback st n = .ok (out, st')) : out.length = n := by
  unfold AudioManager.callback at hc
  split at hc
  · obtain ⟨rfl, -⟩ := hc
    simp
  · split at hc
    · obtain ⟨rfl, -⟩ := hc
      simp
    · split at hc
      · obtain ⟨rfl, -⟩ := hc
        simp
      · dsimp only at hc
        split at hc
        · rename_i hslice
          obtain ⟨rfl, -⟩ := hc
          simp only [List.length_append, List.length_map,
            List.length_replicate]
          omega
        · split at hc
          · rename_i hslice
            obtain ⟨rfl, -⟩ := hc
            simp only [List.length_append, List.length_map,
              List.length_replicate]
            omega
          · exact absurd hc (by simp)

/-- C4 amended: the claimed callback contract holds once the claim's
range `p < F` is restricted to `0 ≤ p < F`.  At reachable negative
positions the contract can fail — at position `-1` a 2-frame request
raises `ValueError` (see the counterexample); at other negative
positions the slice assignment may instead succeed while copying
wrap-around frames under Python's negative-index slicing, which equally
violates the claimed output (the frames at `p .. p+valid-1`). -/
theorem C4_amended_callback_contract (st : AudioManager.PlayerState)
    (d : List AudioManager.Frame) (n : Nat)
    (hd : st.data = some d) (hp : st.playing = true)
    (hpos : 0 ≤ st.position) :
    ((st.position < (d.length : Int)) →
      AudioManager.callback st n =
        .ok (((d.drop st.position.toNat).take
                (min n (d.length - st.position.toNat))).map
               (AudioManager.scaleFrame st.volume) ++
             List.replicate (n - min n (d.length - st.position.toNat))
               AudioManager.zeroFrame,
             { st with position :=
                 st.position + (min n (d.length - st.position.toNat) : Nat) })) ∧
    (((d.length : Int) ≤ st.position) →
      AudioManager.callback st n =
        .ok (List.replicate n AudioManager.zeroFrame,
             { st with playing := false })) ∧
    (∀ (out : List AudioManager.Frame) (st' : AudioManager.PlayerState),
      AudioManager.callback st n = .ok (out, st') → out.length = n) := by
  refine ⟨fun hlt => ?_, fun hge => ?_, callback_ok_length st n⟩
  · unfold AudioManager.callback
    split
    · rename_i hnone
      rw [hd] at hnone
      exact absurd hnone (by simp)
    · rename_i d1 hsome
      obtain rfl : d = d1 := Option.some.inj (hd.symm.trans hsome)
      rw [if_neg (by simp [hp]), if_neg (by omega)]
      dsimp only
      rw [pySlice_nonneg d st.position
            (st.position + min (n : Int) ((d.length : Int) - st.position))
            hpos (by omega) (by omega)]
      rw [if_pos (by
        simp only [List.length_take, List.length_drop]
        omega)]
      have hv : (st.position + min (n : Int) ((d.length : Int) - st.position)).toNat -
          st.position.toNat = min n (d.length - st.position.toNat) := by omega
      have hv3 : (min (n : Int) ((d.length : Int) - st.position)).toNat =
          min n (d.length - st.position.toNat) := by omega
      have hv2 : min (n : Int) ((d.length : Int) - st.position) =
          ((min n (d.length - st.position.toNat) : Nat) : Int) := by omega
      rw [hv, hv3, hv2]
  · unfold AudioManager.callback
    split
    · rename_i hnone
      rw [hd] at hnone
      exact absurd hnone (by simp)
    · rename_i d1 hsome
      obtain rfl : d = d1 := Option.some.inj (hd.symm.trans hsome)
      rw [if_neg (by simp [hp]), if_pos hge]

/-- Witness for C4: in the playing demo session at frame 3 of 4, a
2-frame request copies the one remaining frame (volume-scaled) and one
frame of silence and moves the position to 4; the next request returns
pure silence and clears the playing flag. -/
theorem C4_witness :
    AudioManager.callback playingSt 2 =
      .ok (((demoFrames.drop 3).take 1).map
             (AudioManager.scaleFrame playingSt.volume) ++
           List.replicate 1 AudioManager.zeroFrame,
           { playingSt with position := 4 }) ∧
    AudioManager.callback { playingSt with position := 4 } 2 =
      .ok (List.replicate 2 AudioManager.zeroFrame,
           { playingSt with position := 4, playing := false }) := by
  constructor
  · exact (C4_amended_callback_contract playingSt demoFrames 2 rfl rfl
      (by decide)).1 (by decide)
  · exact (C4_amended_callback_contract { playingSt with position := 4 }
      demoFrames 2 rfl rfl (by decide)).2.1 (by decide)

/-! ## C7 — the two near-duplicate `AudioPlayer` copies -/

/-- C7 is false on the code: on the fresh session, `play()` leaves the
`src/audio_manager` copy stopped (it requires a loaded buffer) but sets
`playing` in the `src/src/main.py` copy (which has no such check). -/
theorem C7_counterexample : ¬ ClaimC7Statement := fun h => by
  have h2 := (h [CtlOp.play]).1
  exact absurd h2 (by decide)

/-- One frame is unchanged by volume scaling at gain 1. -/
theorem scaleFrame_one (f : AudioManager.Frame) :
    AudioManager.scaleFrame 1 f = f := by
  simp [AudioManager.scaleFrame]

/-- Frames are unchanged by volume scaling at gain 1. -/
theorem map_scaleFrame_one (l : List AudioManager.Frame) :
    l.map (AudioManager.scaleFrame 1) = l := by
  have h : AudioManager.scaleFrame 1 = id := by
    funext f
    exact scaleFrame_one f
  rw [h, List.map_id]

/-- C7 amended: the two copies agree on `pause`, `stop`, `seek`,
`get_position`, `get_duration`, `finished_callback`, on the success path
of `load_file`, on `play` when a buffer is loaded, and on the callback
when the first copy's volume is 1.  They differ on `play` with no buffer
loaded (only the `src/src/main.py` copy starts "playing"), on the
failure path of `load_file` (only the `src/audio_manager` copy clears
its fields), and in that only the `src/audio_manager` copy scales
callback output by its volume. -/
theorem C7_amended_partial_equivalence (st : AudioManager.PlayerState) :
    eraseState (AudioManager.pause st) = MainPlayer.pause (eraseState st) ∧
    eraseState (AudioManager.stop st) = MainPlayer.stop (eraseState st) ∧
    (∀ s : Rat, eraseState (AudioManager.seek st s) =
      MainPlayer.seek (eraseState st) s) ∧
    AudioManager.get_position st = MainPlayer.get_position (eraseState st) ∧
    AudioManager.get_duration st = MainPlayer.get_duration (eraseState st) ∧
    eraseState (AudioManager.finished_callback st) =
      MainPlayer.finished_callback (eraseState st) ∧
    (∀ (p : String) (dok : AudioManager.DecodeOk) (rate : Nat),
      eraseState (AudioManager.load_file st p (.ok (dok, rate))).1 =
        (MainPlayer.load_file (eraseState st) p (.ok (dok, rate))).1 ∧
      (AudioManager.load_file st p (.ok (dok, rate))).2 =
        (MainPlayer.load_file (eraseState st) p (.ok (dok, rate))).2) ∧
    (st.data.isSome = true →
      eraseState (AudioManager.play st) = MainPlayer.play (eraseState st)) ∧
    (st.volume = 1 → ∀ n : Nat,
      (AudioManager.callback st n).map (fun r => (r.1, eraseState r.2)) =
        MainPlayer.callback (eraseState st) n) := by
  refine ⟨rfl, rfl, fun s => ?_, ?_, ?_, rfl, fun p dok rate => ⟨rfl, rfl⟩,
          fun hsome => ?_, fun hv n => ?_⟩
  · rcases hd : st.data with _ | d <;>
      rcases hr : st.samplerate with _ | rate <;>
      simp [AudioManager.seek, MainPlayer.seek, eraseState, hd, hr]
  · rcases hr : st.samplerate with _ | rate <;>
      simp [AudioManager.get_position, MainPlayer.get_position, eraseState, hr]
  · rcases hd : st.data with _ | d <;>
      rcases hr : st.samplerate with _ | rate <;>
      simp [AudioManager.get_duration, MainPlayer.get_duration, eraseState,
        hd, hr]
  · rcases hd : st.data with _ | d
    · rw [hd] at hsome; exact absurd hsome (by simp)
    · simp [AudioManager.play, MainPlayer.play, eraseState, hd]
  · rcases hd : st.data with _ | d
    · simp [AudioManager.callback, MainPlayer.callback, Except.map, eraseState, hd]
    · by_cases hp : st.playing = false
      · simp [AudioManager.callback, MainPlayer.callback, Except.map, eraseState, hd, hp]
      · by_cases hend : (d.length : Int) ≤ st.position
        · simp [AudioManager.callback, MainPlayer.callback, Except.map, eraseState,
            hd, hp, hend]
        · by_cases hsl : ((AudioManager.pySlice d st.position
              (st.position + min (n : Int) ((d.length : Int) - st.position))).length : Int) =
              min (n : Int) ((d.length : Int) - st.position)
          · simp [AudioManager.callback, MainPlayer.callback, Except.map, eraseState,
              hd, hp, hend, hsl, hv, map_scaleFrame_one]
          · by_cases hb : (AudioManager.pySlice d st.position
                (st.position + min (n : Int) ((d.length : Int) - st.position))).length = 1
            · simp [AudioManager.callback, MainPlayer.callback, eraseState,
                hd, hp, hend, hsl, hb, hv, map_scaleFrame_one]
              have hneg : ¬((1 : Int) = min (n : Int) ((d.length : Int) - st.position)) := by
                intro hcon
                exact hsl (by omega)
              rw [if_neg hneg, if_neg hneg]
              simp [Except.map, scaleFrame_one]
            · simp [AudioManager.callback, MainPlayer.callback, Except.map, eraseState,
                hd, hp, hend, hsl, hb]

/-- Witness for C7: in the playing demo session (volume 1, buffer
loaded), `play` and a 2-frame callback agree between the two copies. -/
theorem C7_witness :
    eraseState (AudioManager.play playingSt) =
      MainPlayer.play (eraseState playingSt) ∧
    (AudioManager.callback playingSt 2).map (fun r => (r.1, eraseState r.2)) =
      MainPlayer.callback (eraseState playingSt) 2 :=
  ⟨(C7_amended_partial_equivalence playingSt).2.2.2.2.2.2.2.1 rfl,
   (C7_amended_partial_equivalence playingSt).2.2.2.2.2.2.2.2 rfl 2⟩

/-! ## C8 — the filename timestamp parser -/

namespace FileUtils

/-- A digit is not Python whitespace. -/
theorem digit_not_space {c : Char} (h : pyIsDigit c = true) :
    pyIsSpace c = false := by
  have h2 := of_decide_eq_true h
  apply decide_eq_false
  omega

/-- A digit is not `'+'`. -/
theorem digit_ne_plus {c : Char} (h : pyIsDigit c = true) : ¬(c = '+') := by
  rintro rfl
  exact absurd h (by decide)

/-- A digit is not `'-'`. -/
theorem digit_ne_minus {c : Char} (h : pyIsDigit c = true) : ¬(c = '-') := by
  rintro rfl
  exact absurd h (by decide)

/-- A digit is not `'_'`. -/
theorem digit_ne_underscore {c : Char} (h : pyIsDigit c = true) :
    ¬(c = '_') := by
  rintro rfl
  exact absurd h (by decide)

/-- `dropWhile` keeps a list whose head already fails the predicate
(members suffice). -/
theorem dropWhile_eq_self (p : Char → Bool) (l : List Char)
    (h : ∀ c ∈ l, p c = false) : l.dropWhile p = l := by
  cases l with
  | nil => rfl
  | cons x xs =>
    rw [List.dropWhile_cons, h x (by simp)]
    simp

/-- Stripping whitespace from a whitespace-free string is the
identity. -/
theorem stripWs_eq_self (l : List Char)
    (h : ∀ c ∈ l, pyIsSpace c = false) : stripWs l = l := by
  unfold stripWs
  rw [dropWhile_eq_self _ l h,
      dropWhile_eq_self _ l.reverse (fun c hc => h c (List.mem_reverse.mp hc)),
      List.reverse_reverse]

/-- `digitTail` accepts any all-digit string. -/
theorem digitTail_all_digits (l : List Char)
    (h : ∀ c ∈ l, pyIsDigit c = true) : digitTail l = true := by
  induction l with
  | nil => rfl
  | cons c rest ih =>
    unfold digitTail
    rw [if_neg (digit_ne_underscore (h c (by simp)))]
    rw [h c (by simp), ih (fun x hx => h x (by simp [hx]))]
    rfl

/-- `digitGroup` accepts any nonempty all-digit string. -/
theorem digitGroup_all_digits (l : List Char) (hne : l ≠ [])
    (h : ∀ c ∈ l, pyIsDigit c = true) : digitGroup l = true := by
  cases l with
  | nil => exact absurd rfl hne
  | cons c rest =>
    unfold digitGroup
    dsimp only
    rw [h c (by simp), digitTail_all_digits rest (fun x hx => h x (by simp [hx]))]
    rfl

/-- `int()` of a nonempty all-digit (ASCII) string is its decimal
value. -/
theorem pyInt_all_digits (l : List Char) (hne : l ≠ [])
    (h : ∀ c ∈ l, pyIsDigit c = true) :
    pyInt l =
      some ((l.foldl (fun a c => 10 * a + (c.toNat - 48)) 0 : Nat) : Int) := by
  unfold pyInt
  rw [stripWs_eq_self l (fun c hc => digit_not_space (h c hc))]
  cases l with
  | nil => exact absurd rfl hne
  | cons c rest =>
    dsimp only
    rw [if_neg (digit_ne_plus (h c (by simp))),
        if_neg (digit_ne_minus (h c (by simp))),
        if_pos (digitGroup_all_digits (c :: rest) (by simp) h)]
    unfold pyDigitsVal
    rw [List.filter_eq_self.mpr
      (fun a ha => decide_eq_true (digit_ne_underscore (h a ha)))]

/-- `int()` of two digit characters. -/
theorem pyInt_two_digits (c0 c1 : Char) (h0 : pyIsDigit c0 = true)
    (h1 : pyIsDigit c1 = true) :
    pyInt [c0, c1] =
      some ((10 * (c0.toNat - 48) + (c1.toNat - 48) : Nat) : Int) := by
  rw [pyInt_all_digits [c0, c1] (by simp) (by
    intro c hc
    simp only [List.mem_cons, List.not_mem_nil, or_false] at hc
    rcases hc with rfl | rfl
    · exact h0
    · exact h1)]
  congr 1
  simp [List.foldl]

/-- `int("20" + two digits)` is `2000 + value`. -/
theorem pyInt_year (d0 d1 : Char) (h0 : pyIsDigit d0 = true)
    (h1 : pyIsDigit d1 = true) :
    pyInt ['2', '0', d0, d1] =
      some ((2000 + (10 * (d0.toNat - 48) + (d1.toNat - 48)) : Nat) : Int) := by
  rw [pyInt_all_digits ['2', '0', d0, d1] (by simp) (by
    intro c hc
    simp only [List.mem_cons, List.not_mem_nil, or_false] at hc
    rcases hc with rfl | rfl | rfl | rfl
    · decide
    · decide
    · exact h0
    · exact h1)]
  congr 1
  have e2 : '2'.toNat = 50 := rfl
  have e0 : '0'.toNat = 48 := rfl
  simp only [List.foldl, e2, e0]
  omega

/-- Membership in a stable insertion. -/
theorem mem_insertLe {le : α → α → Bool} {x y : α} {l : List α} :
    y ∈ insertLe le x l ↔ y = x ∨ y ∈ l := by
  induction l with
  | nil => simp [insertLe]
  | cons z zs ih =>
    unfold insertLe
    split
    · simp
    · simp only [List.mem_cons, ih]
      tauto

/-- Insertion sort permutes membership. -/
theorem mem_insertionSort {le : α → α → Bool} {y : α} {l : List α} :
    y ∈ insertionSort le l ↔ y ∈ l := by
  induction l with
  | nil => simp [insertionSort]
  | cons z zs ih =>
    unfold insertionSort
    rw [mem_insertLe]
    simp [ih]

end FileUtils

/-- C8 is false on the code: the stem `240101_0930xx` is not of the
pattern (trailing characters), yet the parser succeeds — it slices
positions 0–5 and 7–10 and ignores everything else. -/
theorem C8_counterexample : ¬ ClaimC8Statement := fun h => by
  have h2 := (h ("240101_0930xx".toList)).mp (by decide)
  exact absurd h2 (by decide)

/-- C8 amended: every stem matching the pattern parses successfully, and
any file whose stem fails to parse is excluded from the
`get_audio_files` listing; but the parser accepts more than the pattern
(the separator position and everything beyond position 11 are ignored),
so "exactly when" fails. -/
theorem C8_amended_parse_behaviour :
    (∀ s : List Char, FileUtils.specMatch s = true →
      (FileUtils.parse_audio_filename s).isSome = true) ∧
    (∀ (dir : List Char) (listing : List (List Char)) (name : List Char),
      FileUtils.parse_audio_filename (FileUtils.stemOfMp3 name) = none →
      name ∉ (FileUtils.get_audio_files dir listing).map
        FileUtils.AudioFileEntry.filename) := by
  constructor
  · intro s hs
    rcases s with _ | ⟨d0, _ | ⟨d1, _ | ⟨d2, _ | ⟨d3, _ | ⟨d4, _ | ⟨d5, _ |
      ⟨sep, _ | ⟨h0, _ | ⟨h1, _ | ⟨m0, _ | ⟨m1, _ | ⟨x, rest⟩⟩⟩⟩⟩⟩⟩⟩⟩⟩⟩⟩ <;>
      try exact absurd hs Bool.false_ne_true
    simp only [FileUtils.specMatch, Bool.and_eq_true, decide_eq_true_eq] at hs
    obtain ⟨⟨⟨⟨⟨⟨⟨⟨⟨⟨hd0, hd1⟩, hd2⟩, hd3⟩, hd4⟩, hd5⟩, hh0⟩, hh1⟩, hm0⟩,
      hm1⟩, hB⟩ := hs
    have n0 := of_decide_eq_true hd0
    have n1 := of_decide_eq_true hd1
    show (match FileUtils.pyInt ['2', '0', d0, d1], FileUtils.pyInt [d2, d3],
        FileUtils.pyInt [d4, d5], FileUtils.pyInt [h0, h1],
        FileUtils.pyInt [m0, m1] with
      | some y, some mo, some dd, some hh, some mi =>
          FileUtils.mkDatetime y mo dd hh mi
      | _, _, _, _, _ => none).isSome = true
    rw [FileUtils.pyInt_year d0 d1 hd0 hd1,
        FileUtils.pyInt_two_digits d2 d3 hd2 hd3,
        FileUtils.pyInt_two_digits d4 d5 hd4 hd5,
        FileUtils.pyInt_two_digits h0 h1 hh0 hh1,
        FileUtils.pyInt_two_digits m0 m1 hm0 hm1]
    show (FileUtils.mkDatetime
        ((2000 + (10 * (d0.toNat - 48) + (d1.toNat - 48)) : Nat) : Int)
        ((10 * (d2.toNat - 48) + (d3.toNat - 48) : Nat) : Int)
        ((10 * (d4.toNat - 48) + (d5.toNat - 48) : Nat) : Int)
        ((10 * (h0.toNat - 48) + (h1.toNat - 48) : Nat) : Int)
        ((10 * (m0.toNat - 48) + (m1.toNat - 48) : Nat) : Int)).isSome = true
    unfold FileUtils.mkDatetime
    rw [if_pos]
    · simp
    · simp only [Int.toNat_natCast]
      push_cast
      omega
  · intro dir listing name hfail hmem
    simp only [List.mem_map] at hmem
    obtain ⟨e, he, hname⟩ := hmem
    unfold FileUtils.get_audio_files at he
    rw [FileUtils.mem_insertionSort] at he
    simp only [List.mem_filterMap] at he
    obtain ⟨nm, hnm, hparse⟩ := he
    rcases hp : FileUtils.parse_audio_filename (FileUtils.stemOfMp3 nm)
      with _ | ts
    · rw [hp] at hparse
      exact absurd hparse (by simp)
    · rw [hp] at hparse
      simp only [Option.some.injEq] at hparse
      subst hparse
      simp only at hname
      subst hname
      rw [hfail] at hp
      exact absurd hp (by simp)

/-- Witness for C8: the conforming stem `240101_0930` parses, and a
file `junk.mp3` whose stem does not parse is excluded from the listing
of a directory that contains it. -/
theorem C8_witness :
    (FileUtils.parse_audio_filename ("240101_0930".toList)).isSome = true ∧
    "junk.mp3".toList ∉
      (FileUtils.get_audio_files ("dir".toList)
        ["junk.mp3".toList, "240101_0930.mp3".toList]).map
        FileUtils.AudioFileEntry.filename :=
  ⟨C8_amended_parse_behaviour.1 ("240101_0930".toList) (by decide),
   C8_amended_parse_behaviour.2 ("dir".toList)
     ["junk.mp3".toList, "240101_0930.mp3".toList] ("junk.mp3".toList)
     (by decide)⟩

/-! ## C9 — wildcard behaviour of `search_transcripts` -/

/-- A pattern starting with `%` and otherwise empty matches
everything. -/
theorem sqlLike_percent (s : List Char) :
    Database.sqlLike ['%'] s = true := by
  induction s with
  | nil => simp [Database.sqlLike]
  | cons c rest ih => simp [Database.sqlLike, ih]

/-- Prepending `%` to a pattern keeps every match. -/
theorem sqlLike_percent_cons (p : List Char) (s : List Char)
    (h : Database.sqlLike p s = true) :
    Database.sqlLike ('%' :: p) s = true := by
  cases s with
  | nil => simp [Database.sqlLike, h]
  | cons c rest => simp [Database.sqlLike, h]

/-- The pattern `%%%` built from the query `"%"` matches every word. -/
theorem sqlLike_triple_percent (s : List Char) :
    Database.sqlLike ['%', '%', '%'] s = true :=
  sqlLike_percent_cons _ s (sqlLike_percent_cons _ s (sqlLike_percent s))

/-- The pattern `%a%` matches exactly the words containing an `a`
(up to ASCII case). -/
theorem sqlLike_percent_a (w : List Char) :
    Database.sqlLike ['%', 'a', '%'] w = true ↔
      ∃ x ∈ w, Database.asciiLower x = 'a' := by
  induction w with
  | nil => simp [Database.sqlLike]
  | cons c rest ih =>
    rw [show Database.sqlLike ['%', 'a', '%'] (c :: rest) =
        (Database.sqlLike ['a', '%'] (c :: rest) ||
         Database.sqlLike ['%', 'a', '%'] rest) by
      simp [Database.sqlLike]]
    rw [show Database.sqlLike ['a', '%'] (c :: rest) =
        (decide (Database.asciiLower 'a' = Database.asciiLower c) &&
         Database.sqlLike ['%'] rest) by
      simp [Database.sqlLike]]
    rw [sqlLike_percent rest]
    simp only [Bool.and_true, Bool.or_eq_true, decide_eq_true_eq, ih]
    constructor
    · rintro (hc | ⟨x, hx, hlx⟩)
      · exact ⟨c, by simp, hc.symm⟩
      · exact ⟨x, by simp [hx], hlx⟩
    · rintro ⟨x, hx, hlx⟩
      rcases List.mem_cons.mp hx with rfl | hx'
      · exact Or.inl hlx.symm
      · exact Or.inr ⟨x, hx', hlx⟩

/-- Membership in the projected result of `search_transcripts`,
unfolded to the underlying rows. -/
theorem mem_search_transcripts (db : Database.DBState) (q : List Char)
    (path : String) :
    path ∈ (Database.search_transcripts db q).map Prod.fst ↔
      ∃ t ∈ db.transcriptions, t.file_path = path ∧
        t.status = "completed" ∧
        ∃ si ∈ db.search_index, si.file_path = t.file_path ∧
          Database.sqlLike ('%' :: (q.map Database.asciiLower) ++ ['%'])
            si.word = true := by
  unfold Database.search_transcripts
  simp only [List.mem_map, List.mem_dedup, FileUtils.mem_insertionSort,
    List.mem_filter, Bool.and_eq_true, List.any_eq_true, beq_iff_eq]
  constructor
  · rintro ⟨pr, ⟨t, ⟨ht, hstat, si, hsi, hfp, hlike⟩, rfl⟩, rfl⟩
    exact ⟨t, ht, rfl, hstat, si, hsi, hfp, hlike⟩
  · rintro ⟨t, ht, rfl, hstat, si, hsi, hfp, hlike⟩
    exact ⟨(t.file_path, t.transcript),
      ⟨t, ⟨ht, hstat, si, hsi, hfp, hlike⟩, rfl⟩, rfl⟩

/-- C9: the query is embedded between `%` wildcards in a SQL `LIKE`
pattern, so `%`/`_` in the query act as wildcards — the query `"%"`
returns every completed transcription that has at least one indexed
word, not only those containing a literal percent sign — and the store
enforces no minimum query length: a one-character query `"a"` is
searched normally, returning exactly the completed transcriptions with
an indexed word containing an `a`. -/
theorem C9_search_is_like_with_wildcards (db : Database.DBState)
    (path : String) :
    ((∃ t ∈ db.transcriptions, t.file_path = path ∧
        t.status = "completed") →
      (∃ si ∈ db.search_index, si.file_path = path) →
      path ∈ (Database.search_transcripts db ['%']).map Prod.fst) ∧
    (path ∈ (Database.search_transcripts db ['a']).map Prod.fst ↔
      ∃ t ∈ db.transcriptions, t.file_path = path ∧
        t.status = "completed" ∧
        ∃ si ∈ db.search_index, si.file_path = path ∧
          ∃ x ∈ si.word, Database.asciiLower x = 'a') := by
  constructor
  · rintro ⟨t, ht, hfp, hstat⟩ ⟨si, hsi, hsifp⟩
    rw [mem_search_transcripts]
    refine ⟨t, ht, hfp, hstat, si, hsi, by rw [hsifp, hfp], ?_⟩
    exact sqlLike_triple_percent si.word
  · rw [mem_search_transcripts]
    constructor
    · rintro ⟨t, ht, rfl, hstat, si, hsi, hfp, hlike⟩
      exact ⟨t, ht, rfl, hstat, si, hsi, hfp,
        (sqlLike_percent_a si.word).mp hlike⟩
    · rintro ⟨t, ht, rfl, hstat, si, hsi, hfp, hx⟩
      exact ⟨t, ht, rfl, hstat, si, hsi, hfp,
        (sqlLike_percent_a si.word).mpr hx⟩

/-- Witness for C9: in the one-row store, the `"%"` query returns the
completed transcription, and the one-character query `"a"` finds it via
the indexed word `cat`. -/
theorem C9_witness :
    "a.mp3" ∈ (Database.search_transcripts demoDB ['%']).map Prod.fst ∧
    "a.mp3" ∈ (Database.search_transcripts demoDB ['a']).map Prod.fst :=
  ⟨(C9_search_is_like_with_wildcards demoDB "a.mp3").1
      ⟨⟨"a.mp3", "hello cat", 5, "completed"⟩, by simp [demoDB], rfl, rfl⟩
      ⟨⟨"a.mp3", "hello".toList, 0⟩, by simp [demoDB], rfl⟩,
   (C9_search_is_like_with_wildcards demoDB "a.mp3").2.mpr
      ⟨⟨"a.mp3", "hello cat", 5, "completed"⟩, by simp [demoDB], rfl, rfl,
       ⟨"a.mp3", "cat".toList, 1⟩, by simp [demoDB], rfl,
       'a', by decide, by decide⟩⟩

/-! ## C5 — which operations reset the position -/

/-- C5 is false on the code: `finished_callback` (neither `stop` nor
`load`) resets the position from 3 to 0. -/
theorem C5_counterexample : ¬ ClaimC5Statement := fun h => by
  have h2 := h.2 playingSt AudioManager.Op.finished rfl (by decide)
  exact h2 rfl

/-- C5 amended: `pause()` indeed never changes the position, and
`stop()` and `load()` force it to 0 — but so does `finished_callback`
(the device-level finished notification), so they are not the only
ones. -/
theorem C5_amended_position_resetters (st : AudioManager.PlayerState) :
    (AudioManager.pause st).position = st.position ∧
    (AudioManager.stop st).position = 0 ∧
    (AudioManager.finished_callback st).position = 0 ∧
    (∀ (p : String) (dec : AudioManager.DecodeResult),
      (AudioManager.load_file st p dec).1.position = 0) := by
  refine ⟨rfl, rfl, rfl, fun p dec => ?_⟩
  cases dec with
  | ok x => obtain ⟨d, rate⟩ := x; rfl
  | error e => rfl

/-! ## C6 — `play` only with a loaded buffer -/

/-- C6: `play()` sets the playing flag when a buffer is loaded and is a
complete no-op (all fields unchanged, no error) when none is. -/
theorem C6_play_iff_loaded (st : AudioManager.PlayerState) :
    (st.data.isSome = true →
      AudioManager.play st = { st with playing := true }) ∧
    (st.data = none → AudioManager.play st = st) := by
  constructor
  · intro h; simp [AudioManager.play, h]
  · intro h; simp [AudioManager.play, h]

/-- Witness for C6: on the loaded demo session `play` raises the flag;
on the fresh session it changes nothing. -/
theorem C6_witness :
    AudioManager.play loadedSt = { loadedSt with playing := true } ∧
    AudioManager.play AudioManager.initState = AudioManager.initState :=
  ⟨(C6_play_iff_loaded loadedSt).1 rfl,
   (C6_play_iff_loaded AudioManager.initState).2 rfl⟩

/-! ## C10 — the Control API after `cleanup` -/

/-- C10: after `cleanup()` has replaced the session lock by `None`,
every Control API call raises (the `with self.lock:` entry fails) instead
of returning; the engine is not a usable no-op. -/
theorem C10_api_raises_after_cleanup (o : AudioManager.PlayerObj)
    (op : AudioManager.ApiOp) :
    AudioManager.apiCall (AudioManager.cleanup o) op =
      .error AudioManager.lockGoneMsg := by
  simp [AudioManager.apiCall, AudioManager.cleanup]
